import Mathlib

/-!
Verification development for the flatmap-mvt-viewer repository.

The Lean definitions below are a shallow embedding of the repository's
JavaScript sources:

* src/src/annotation.js — the PEG annotation grammar (the GRAMMER string,
  interpreted with PEG.js semantics: ordered choice, greedy repetition,
  whole-input consumption) and Parser.parseAnnotation;
* src/unnamed/part_001 — ModelOntologies.normaliseKey and Entity.style;
* src/src/stylesheet.js — StyleRule, StyleRule.compare, StyleSheet.styling;
* src/src/features.js — PropertiesMap.set (pattern registration) together
  with FlatMap.addPattern of src/unnamed/part_000;
* src/unnamed/part_000 — FlatMap's annotation store (annotationUrl,
  addAnnotation_, delAnnotation_, uniqueAnnotation, setAnnotation) and the
  save flow of Annotator.dialogClose_ from src/src/annotation.js.

JavaScript values flowing out of the PEG parser are heterogeneous (strings
and nested arrays), modelled by the inductive type PVal; JS objects and
Maps are modelled as association lists with JS insertion-order semantics.
-/

/-- Assoc-list read, mirroring JS Map.get / object property read
(first—and only—entry with the key; absent key gives undefined). -/
def mapGet {α : Type} : List (String × α) → String → Option α
  | [], _ => none
  | (k', v) :: rest, k => if k' == k then some v else mapGet rest k

/-- Assoc-list write, mirroring JS Map.set / object property write:
an existing key keeps its position and gets the new value, a new key is
appended at the end (JS insertion order). -/
def mapSet {α : Type} : List (String × α) → String → α → List (String × α)
  | [], k, v => [(k, v)]
  | (k', v') :: rest, k, v =>
    if k' == k then (k, v) :: rest else (k', v') :: mapSet rest k v

/-- Assoc-list delete, mirroring JS Map.delete (keys are unique). -/
def mapDel {α : Type} : List (String × α) → String → List (String × α)
  | [], _ => []
  | (k', v') :: rest, k => if k' == k then rest else (k', v') :: mapDel rest k

/-- A value produced by the PEG.js parser: a matched string, an array of
sub-results, or JS undefined (out-of-range indexing). -/
inductive PVal where
  | str (s : String)
  | list (l : List PVal)
  | undef

mutual

/-- Decidable equality for parse-result values. -/
def PVal.decEq : (a b : PVal) → Decidable (a = b)
  | .str s, .str t =>
    match String.decEq s t with
    | isTrue h => isTrue (by rw [h])
    | isFalse h => isFalse (by intro hh; injection hh; contradiction)
  | .str _, .list _ => isFalse (by intro h; exact PVal.noConfusion h)
  | .str _, .undef => isFalse (by intro h; exact PVal.noConfusion h)
  | .list _, .str _ => isFalse (by intro h; exact PVal.noConfusion h)
  | .list l, .list m =>
    match PVal.decEqList l m with
    | isTrue h => isTrue (by rw [h])
    | isFalse h => isFalse (by intro hh; injection hh; contradiction)
  | .list _, .undef => isFalse (by intro h; exact PVal.noConfusion h)
  | .undef, .str _ => isFalse (by intro h; exact PVal.noConfusion h)
  | .undef, .list _ => isFalse (by intro h; exact PVal.noConfusion h)
  | .undef, .undef => isTrue rfl

/-- Decidable equality for lists of parse-result values. -/
def PVal.decEqList : (l m : List PVal) → Decidable (l = m)
  | [], [] => isTrue rfl
  | [], _ :: _ => isFalse (by intro h; cases h)
  | _ :: _, [] => isFalse (by intro h; cases h)
  | a :: l, b :: m =>
    match PVal.decEq a b, PVal.decEqList l m with
    | isTrue h1, isTrue h2 => isTrue (by rw [h1, h2])
    | isFalse _, _ => isFalse (by intro hh; injection hh; contradiction)
    | _, isFalse _ => isFalse (by intro hh; injection hh; contradiction)

end

instance : DecidableEq PVal := PVal.decEq

/-- JS array indexing v[n]: out of range, or indexing a non-array, gives
undefined. -/
def PVal.idx : PVal → Nat → PVal
  | .list l, n => l.getD n .undef
  | _, _ => .undef

mutual

/-- JS String() coercion: a string is itself, an array joins its elements
with commas (Array.prototype.toString), undefined prints as such. -/
def PVal.jsString : PVal → String
  | .str s => s
  | .undef => "undefined"
  | .list l => PVal.jsStringList l

/-- Comma-joined rendering of an array's elements (Array.prototype.join(',')). -/
def PVal.jsStringList : List PVal → String
  | [] => ""
  | [v] => v.jsString
  | v :: w :: rest => v.jsString ++ "," ++ PVal.jsStringList (w :: rest)

end

/-- JS Array.prototype.join('') over a parse-result array: each element is
coerced with String() and the pieces are concatenated. -/
def PVal.joinEmpty : PVal → String
  | .list l => String.join (l.map PVal.jsString)
  | v => v.jsString

/-- JS for...of iteration: an array yields its elements, a string yields its
characters (as one-character strings), undefined yields nothing (the JS code
would fault there; no grammar result reaches that case). -/
def PVal.listOf : PVal → List PVal
  | .list l => l
  | .str s => s.toList.map (fun c => .str (String.mk [c]))
  | .undef => []

/-- A PEG parsing expression over the remaining input: either fails, or
yields a result value and the rest of the input. -/
def PegP : Type := List Char → Option (PVal × List Char)

/-- Literal string expression of the PEG grammar: matches exactly the given
text and returns it. -/
def pegLit (s : String) : PegP := fun cs =>
  if s.toList.isPrefixOf cs then some (.str s, cs.drop s.toList.length) else none

/-- Character-class expression of the PEG grammar: consumes one character
satisfying the predicate and returns it as a one-character string. -/
def pegCls (p : Char → Bool) : PegP := fun cs =>
  match cs with
  | [] => none
  | c :: rest => if p c then some (.str (String.mk [c]), rest) else none

/-- Ordered choice of PEG: the second alternative is tried only where the
first fails. -/
def pegAlt (p q : PegP) : PegP := fun cs =>
  match p cs with
  | some r => some r
  | none => q cs

/-- Sequence helper: runs the expressions in order, collecting their results. -/
def pegSeqAux : List PegP → List Char → Option (List PVal × List Char)
  | [], cs => some ([], cs)
  | p :: ps, cs =>
    match p cs with
    | none => none
    | some (v, cs') =>
      match pegSeqAux ps cs' with
      | none => none
      | some (vs, cs'') => some (v :: vs, cs'')

/-- Sequence expression of the PEG grammar: the result is the array of the
element results, as PEG.js builds it. -/
def pegSeq (ps : List PegP) : PegP := fun cs =>
  match pegSeqAux ps cs with
  | none => none
  | some (vs, rest) => some (.list vs, rest)

/-- Greedy repetition helper, fuelled by the remaining input length. Every
repeated expression of the annotation grammar consumes at least one
character when it succeeds, so the fuel is never exhausted; an iteration
that consumed nothing stops the loop (PEG.js would not terminate there, and
no input reaches that case with this grammar). -/
def pegStarAux (p : PegP) : Nat → List Char → List PVal × List Char
  | 0, cs => ([], cs)
  | fuel + 1, cs =>
    match p cs with
    | none => ([], cs)
    | some (v, cs') =>
      if cs'.length < cs.length then
        let (vs, rest) := pegStarAux p fuel cs'
        (v :: vs, rest)
      else ([], cs)

/-- Zero-or-more repetition (PEG *): always succeeds, returns the array of
iteration results. -/
def pegStar (p : PegP) : PegP := fun cs =>
  let (vs, rest) := pegStarAux p (cs.length + 1) cs
  some (.list vs, rest)

/-- One-or-more repetition (PEG +): like *, but fails on zero matches. -/
def pegPlus (p : PegP) : PegP := fun cs =>
  match pegStar p cs with
  | some (.list (v :: vs), rest) => some (.list (v :: vs), rest)
  | _ => none

/-- Semantic action of a PEG rule: transforms the matched result. -/
def pegAct (p : PegP) (f : PVal → PVal) : PegP := fun cs =>
  match p cs with
  | none => none
  | some (v, rest) => some (f v, rest)

/-! The rules of the GRAMMER string of src/src/annotation.js, in dependency
order (the grammar has no recursive rule). Rule names follow the source. -/

/-- Whitespace rule: underscore of the grammar; the action returns an empty
string. -/
def WS : PegP := pegAct (pegStar (pegCls (fun c => c = ' ' ∨ c = '\t'))) (fun _ => .str "")

/-- START_ID rule: one letter or digit. -/
def START_ID : PegP :=
  pegAlt (pegCls (fun c => 'a' ≤ c ∧ c ≤ 'z'))
    (pegAlt (pegCls (fun c => 'A' ≤ c ∧ c ≤ 'Z')) (pegCls (fun c => '0' ≤ c ∧ c ≤ '9')))

/-- IDENTIFIER rule: a START_ID then further START_IDs or one of . / : - _ ;
the action concatenates first character and rest. -/
def IDENTIFIER : PegP :=
  pegAct
    (pegSeq [START_ID,
      pegStar (pegAlt START_ID
        (pegCls (fun c => c = '.' ∨ c = '/' ∨ c = ':' ∨ c = '-' ∨ c = '_')))])
    (fun v => .str ((v.idx 0).jsString ++ (v.idx 1).joinEmpty))

/-- FEATURE_ID rule: a hash then an IDENTIFIER; the action returns the
identifier alone. -/
def FEATURE_ID : PegP :=
  pegAct (pegSeq [pegLit "#", IDENTIFIER]) (fun v => v.idx 1)

/-- FEATURE_ID_LIST rule. -/
def FEATURE_ID_LIST : PegP :=
  pegSeq [FEATURE_ID, WS, pegStar (pegSeq [pegLit ",", WS, FEATURE_ID])]

/-- ONTOLOGY_SUFFIX rule. -/
def ONTOLOGY_SUFFIX : PegP :=
  pegAlt (pegLit "FMA") (pegAlt (pegLit "ILX") (pegLit "UBERON"))

/-- ONTOLOGY_ID rule. In PEG.js the plus signs of the source are postfix
repetitions, so the parsed sequence is ONTOLOGY_SUFFIX+, then one or more
colons, then IDENTIFIER; the action is join('') over that array. -/
def ONTOLOGY_ID : PegP :=
  pegAct (pegSeq [pegPlus ONTOLOGY_SUFFIX, pegPlus (pegLit ":"), IDENTIFIER])
    (fun v => .str v.joinEmpty)

/-- ONTOLOGY_ID_LIST rule. -/
def ONTOLOGY_ID_LIST : PegP :=
  pegSeq [ONTOLOGY_ID, WS, pegStar (pegSeq [pegLit ",", WS, ONTOLOGY_ID])]

/-- NEURAL_NODE rule. -/
def NEURAL_NODE : PegP :=
  pegAlt (pegLit "N1") (pegAlt (pegLit "N2") (pegAlt (pegLit "N3")
    (pegAlt (pegLit "N4") (pegLit "N5"))))

/-- NODE_SPEC rule: seven sequence elements (whitespace results included). -/
def NODE_SPEC : PegP :=
  pegSeq [pegLit "node", WS, pegLit "(", WS, NEURAL_NODE, WS, pegLit ")"]

/-- EDGE_SPEC rule. -/
def EDGE_SPEC : PegP :=
  pegSeq [pegLit "edge", WS, pegLit "(", WS, FEATURE_ID_LIST, WS, pegLit ")"]

/-- LABEL_SPEC rule. Unlike the other bracketed rules it has no whitespace
element after the opening parenthesis, so its sequence has five elements and
element 4 is the closing parenthesis literal. -/
def LABEL_SPEC : PegP :=
  pegSeq [pegLit "label", WS, pegLit "(", pegPlus (pegCls (fun c => c ≠ ')')), pegLit ")"]

/-- MODELS_SPEC rule. -/
def MODELS_SPEC : PegP :=
  pegSeq [pegLit "models", WS, pegLit "(", WS, ONTOLOGY_ID_LIST, WS, pegLit ")"]

/-- ROUTING rule. -/
def ROUTING : PegP :=
  pegAlt (pegLit "source") (pegAlt (pegLit "target") (pegLit "via"))

/-- ROUTING_SPEC rule. -/
def ROUTING_SPEC : PegP :=
  pegSeq [ROUTING, WS, pegLit "(", WS, FEATURE_ID, WS, pegLit ")"]

/-- PROPERTY_SPEC rule. -/
def PROPERTY_SPEC : PegP := pegAlt MODELS_SPEC (pegAlt LABEL_SPEC ROUTING_SPEC)

/-- FEATURE_CLASS rule. -/
def FEATURE_CLASS : PegP := pegAlt NODE_SPEC EDGE_SPEC

/-- SPECIFICATION rule. -/
def SPECIFICATION : PegP := pegAlt FEATURE_CLASS PROPERTY_SPEC

/-- ANNOTATION start rule. -/
def ANNOTATION : PegP :=
  pegSeq [FEATURE_ID, pegStar (pegSeq [WS, SPECIFICATION])]

/-- Running the generated parser on the whole text, as PEG.js parse does:
success requires the start rule to consume every character; anything else is
a SyntaxError. -/
def annotationParse (text : String) : Option PVal :=
  match ANNOTATION text.toList with
  | some (v, []) => some v
  | _ => none

/-- The record Parser.parseAnnotation builds: text always present; id only on
a successful parse; properties only when at least one specification clause
was parsed; models always present; error only on a SyntaxError. The error
message text comes from the external PEG library, so only its presence is
modelled. -/
structure AnnRecord where
  text : String
  id : Option PVal := none
  properties : Option (List (String × List PVal)) := none
  models : List PVal := []
  error : Option Unit := none
deriving DecidableEq

/-- Body of the for-loop of Parser.parseAnnotation: one parsed specification
clause updates the properties object. The clause's name is element 0 of the
inner sequence, its parameter payload element 4; a string payload is pushed
whole, otherwise element 0 and, for each following (comma ws item) group,
element 2 are pushed. Pushing extends the entry in place when the name was
seen before, else inserts it at the end. -/
def addSpecParams (props : List (String × List PVal)) (spec : PVal) : List (String × List PVal) :=
  let property := ((spec.idx 1).idx 0).jsString
  let params := (spec.idx 1).idx 4
  let newParams : List PVal :=
    match params with
    | .str s => [.str s]
    | _ => params.idx 0 :: (params.idx 2).listOf.map (fun p => p.idx 2)
  match mapGet props property with
  | some existing => mapSet props property (existing ++ newParams)
  | none => mapSet props property newParams

/-- Parser.parseAnnotation of src/src/annotation.js: on success, the leading
feature identifier becomes id and the clause loop fills properties (the
properties key is only written inside the loop, so it is absent when there
is no clause); models copies properties.models when that key exists, else
the empty sequence; a SyntaxError becomes the error field. The catch block
re-throws non-syntax exceptions, but the extraction code cannot fault on any
value the grammar produces, so the function is total. -/
def Parser.parseAnnotation (text : String) : AnnRecord :=
  match annotationParse text with
  | none => { text := text, error := some () }
  | some parsed =>
    let specs := (parsed.idx 1).listOf
    let props := specs.foldl addSpecParams []
    let properties : Option (List (String × List PVal)) :=
      match specs with
      | [] => none
      | _ => some props
    let models : List PVal :=
      match properties with
      | some ps => (mapGet ps "models").getD []
      | none => []
    { text := text, id := some (parsed.idx 0), properties := properties, models := models }

/-- JS String.prototype.padStart(7, '0') on the character list of a key's
numeric part. -/
def padStart7 (l : List Char) : List Char := List.replicate (7 - l.length) '0' ++ l

/-- Core of ModelOntologies.normaliseKey over character lists: when the
first seven characters are UBERON: or UBERON_, the rest is zero-padded to
seven characters behind a canonical UBERON_ prefix; every other key passes
through unchanged. -/
def normaliseKeyL (k : List Char) : List Char :=
  if k.take 7 = "UBERON:".toList ∨ k.take 7 = "UBERON_".toList then
    "UBERON_".toList ++ padStart7 (k.drop 7)
  else k

/-- ModelOntologies.normaliseKey of src/unnamed/part_001. -/
def ModelOntologies.normaliseKey (k : String) : String := ⟨normaliseKeyL k.toList⟩

/-- An ontology entity of src/unnamed/part_001: identifier, label, direct
part_of parents and direct is_a parents. -/
structure Entity where
  id : String
  label : String := ""
  part_of : List String := []
  is_a : List String := []

/-- Modelled from the spec: the Style class is imported from stylesheet.js
by src/unnamed/part_001 but is not defined anywhere under src; per the data
model it is a property-to-value mapping. -/
abbrev Style : Type := List (String × String)

/-- Modelled from the spec: Style.merge is not in src. Spec section 4.3's
merge rule says declarations merge property-by-property and a
higher-precedence rule's value stands, with properties it does not mention
retained from lower-precedence rules; Entity.style merges in descending
precedence order (part-of before is-a), so a merge keeps the value already
present and only adds properties that are still absent. -/
def Style.merge (s other : Style) : Style :=
  other.foldl (fun acc p => if (mapGet acc p.1).isSome then acc else acc ++ [p]) s

/-- Modelled from the spec: a stylesheet, for the ontology styling path, is
the loaded rule set — selector paired with its declarations, in source
order. -/
abbrev OntStyleSheet : Type := List (String × Style)

/-- Modelled from the spec: StyleSheet.style (called by Entity.style with a
class selector string) is not in src; it collects the declarations of every
rule whose selector is the given one, merging them in source order. -/
def OntStyleSheet.style (ss : OntStyleSheet) (selector : String) : Style :=
  (ss.filter (fun r => r.1 == selector)).foldl (fun acc r => Style.merge acc r.2) []

/-- Modelled from the spec: StyleSheet.modelStyle is not in src; the rules
for an ontology model are the class-selector rules naming it. -/
def OntStyleSheet.modelStyle (ss : OntStyleSheet) (model : String) : Style :=
  ss.style ("." ++ model)

/-- Entity.style of src/unnamed/part_001: starting from an empty style,
merge the styles of every direct part_of parent, then of every direct is_a
parent, then of the entity's own class selector. -/
def Entity.style (e : Entity) (ss : OntStyleSheet) : Style :=
  let s : Style := []
  let s := e.part_of.foldl (fun acc model => Style.merge acc (ss.modelStyle model)) s
  let s := e.is_a.foldl (fun acc model => Style.merge acc (ss.modelStyle model)) s
  Style.merge s (ss.style ("." ++ e.id))

/-- Styling payload of a parsed CSS rule, as StyleSheet.styling of
src/src/stylesheet.js inspects it: a DECLARATION_LIST carrying
property-value declarations, or some other AST node type. -/
inductive RuleStyling where
  | declarationList (decls : List (String × String))
  | otherNode
deriving DecidableEq

/-- Modelled from the spec: selector specificity is computed by the external
specificity library; for the simple selectors the stylesheets use it is the
four-component array with the id count in component 1 and the class count in
component 2. -/
def calcSpecificity (selector : String) : List Nat :=
  if selector.toList.take 1 = ['#'] then [0, 1, 0, 0]
  else if selector.toList.take 1 = ['.'] then [0, 0, 1, 0]
  else [0, 0, 0, 1]

/-- Modelled from the spec: SPECIFICITY.compare of the external library,
comparing specificity arrays lexicographically (negative, zero or positive). -/
def specCompare : List Nat → List Nat → Int
  | a :: as, b :: bs =>
    if a < b then -1 else if b < a then 1 else specCompare as bs
  | _, _ => 0

/-- A style rule of src/src/stylesheet.js: selector, styling payload, the
specificity array computed at construction, and the position (sequence
number) at which the rule was added. -/
structure StyleRule where
  selector : String
  styling : RuleStyling
  specificity : List Nat
  position : Nat
deriving DecidableEq

/-- StyleRule.compare of src/src/stylesheet.js, embedded as written: the
specificity comparison decides when it is nonzero, and the tie-break
compares the rule's own position with itself (the source reads
this._position on both sides), so it always yields zero. -/
def StyleRule.compare (r other : StyleRule) : Int :=
  let order := specCompare r.specificity other.specificity
  if order ≠ 0 then order
  else if r.position > r.position then 1
  else if r.position < r.position then -1
  else 0

/-- Modelled from the spec: StyleRule.matches has an empty body in
src/src/stylesheet.js; per spec section 4.3 a class selector matches a
feature whose own ontology class or superclass chain names it, and an id
selector matches the feature's own identifier. -/
structure Feature where
  id : String
  ontologyClass : Option String := none
  superclasses : List String := []

/-- Modelled from the spec: whether a selector matches a feature (the body
of the StyleRule.matches stub). -/
def selMatches (selector : String) (f : Feature) : Bool :=
  if selector.toList.take 1 = ['.'] then
    let cls : String := ⟨selector.toList.drop 1⟩
    f.ontologyClass == some cls || f.superclasses.contains cls
  else if selector.toList.take 1 = ['#'] then (⟨selector.toList.drop 1⟩ : String) == f.id
  else false

/-- StyleRule.matches applied to a feature. -/
def StyleRule.matches (r : StyleRule) (f : Feature) : Bool := selMatches r.selector f

/-- Stable insertion of a rule into a comparator-sorted list: the rule goes
before the first element that compares strictly greater, so rules comparing
equal keep their relative order. -/
def insertRule (x : StyleRule) : List StyleRule → List StyleRule
  | [] => [x]
  | y :: ys => if x.compare y ≤ 0 then x :: y :: ys else y :: insertRule x ys

/-- Array.prototype.sort with the comparator a.compare(b): modelled as a
stable sort, as ECMAScript 2019 requires. -/
def sortRules : List StyleRule → List StyleRule
  | [] => []
  | x :: xs => insertRule x (sortRules xs)

/-- The mutable state of StyleSheet of src/src/stylesheet.js: the rule list
and the running sequence counter. -/
structure StyleSheetState where
  styleRules : List StyleRule := []
  sequence : Nat := 0

/-- StyleSheet.addStyleRules_ after CSS parsing (the cssparser library is
external): each selector-styling pair is pushed with the next sequence
number as its position, then the whole rule list is sorted with the rule
comparator. -/
def StyleSheetState.addStyleRules (ss : StyleSheetState) (rules : List (String × RuleStyling)) :
    StyleSheetState :=
  let pushed := rules.foldl
    (fun (acc : StyleSheetState) sr =>
      { styleRules := acc.styleRules ++ [⟨sr.1, sr.2, calcSpecificity sr.1, acc.sequence⟩],
        sequence := acc.sequence + 1 })
    ss
  { pushed with styleRules := sortRules pushed.styleRules }

/-- StyleSheet.styling of src/src/stylesheet.js: walk the sorted rules and,
for each rule matching the feature whose styling is a DECLARATION_LIST,
write its declarations into the styling object — a later matching rule
overwrites an earlier one's value for the same property. -/
def StyleSheetState.styling (ss : StyleSheetState) (f : Feature) : List (String × String) :=
  ss.styleRules.foldl
    (fun styling r =>
      if r.matches f then
        match r.styling with
        | .declarationList decls => decls.foldl (fun st d => mapSet st d.1 d.2) styling
        | .otherNode => styling
      else styling)
    []

/-- A declaration value from the CSS parser's deep JSON, as PropertiesMap.set
of src/src/features.js inspects it: a SEQUENCE node with its item list, or
any other token value. -/
inductive CssValue where
  | sequence (items : List String)
  | token (s : String)
deriving DecidableEq

/-- A CSS declaration: property name and value. -/
structure CssDeclaration where
  property : String
  value : CssValue
deriving DecidableEq

/-- One pattern registration side effect towards the rendering collaborator:
FlatMap.addPattern of src/unnamed/part_000 resolves the path against the
stylesheet URL, loads the image and registers it with the map under the
pattern identifier. -/
structure PatternRegistration where
  rulesUrl : String
  id : String
  path : String
deriving DecidableEq

/-- JS String.prototype.slice(1, -1): drop the first and last characters
(stripping the quotes of a quoted CSS string token). -/
def sliceEnds (s : String) : String := ⟨(s.toList.drop 1).dropLast⟩

/-- PropertiesMap.set of src/src/features.js: a pattern declaration whose
value is a two-element SEQUENCE triggers one addPattern side effect and
stores the pattern id under the property name; an ill-formed pattern value
is only logged; every other declaration is stored as is. Returns the updated
properties map and the side effects emitted by this call. -/
def PropertiesMap.set (props : List (String × CssValue)) (rulesUrl : String)
    (d : CssDeclaration) : List (String × CssValue) × List PatternRegistration :=
  if d.property == "pattern" then
    match d.value with
    | .sequence [patternId, pathTok] =>
      (mapSet props "pattern" (.token patternId),
       [⟨rulesUrl, patternId, sliceEnds pathTok⟩])
    | _ => (props, [])
  else (mapSet props d.property d.value, [])

/-- The declaration loop of StyleSheet.addDeclarations_ of
src/src/features.js: each declaration is fed to PropertiesMap.set in order;
the emitted registration side effects are concatenated. -/
def PropertiesMap.setAll (props : List (String × CssValue)) (rulesUrl : String)
    (ds : List CssDeclaration) : List (String × CssValue) × List PatternRegistration :=
  ds.foldl
    (fun acc d =>
      let r := PropertiesMap.set acc.1 rulesUrl d
      (r.1, acc.2 ++ r.2))
    (props, [])

/-- An annotation object as FlatMap of src/unnamed/part_000 stores it. The
id field is absent (undefined) when the record came from a failed parse or
from the empty-text deletion object built by Annotator.dialogClose_. -/
structure Ann where
  id : Option String := none
  layer : String := ""
  text : String := ""
  queryable : Bool := false
  models : List String := []
  featureId : String := ""
  url : String := ""
  error : Option String := none
deriving DecidableEq

/-- A metadata entry of the map description (FlatMap._metadata). -/
structure MetadataEntry where
  annotation : String
  geometry : String := ""
  layer : String := ""
  error : Option String := none
deriving DecidableEq

/-- The annotation-store state of a FlatMap instance: its source URL, the
two annotation indexes, and the metadata object. -/
structure FlatMapState where
  source : String := ""
  idToAnnotation : List (String × Ann) := []
  urlToAnnotation : List (String × Ann) := []
  metadata : List (String × MetadataEntry) := []
deriving DecidableEq

/-- JS template-literal interpolation of a possibly-undefined string. -/
def jsShow : Option String → String
  | some s => s
  | none => "undefined"

/-- FlatMap.annotationUrl of src/unnamed/part_000: the derived URL
source/layer/id (an absent id interpolates as the text undefined). -/
def FlatMapState.annotationUrl (st : FlatMapState) (ann : Ann) : String :=
  st.source ++ "/" ++ ann.layer ++ "/" ++ jsShow ann.id

/-- FlatMap.getAnnotation. -/
def FlatMapState.getAnnotation (st : FlatMapState) (featureId : String) : Option Ann :=
  mapGet st.idToAnnotation featureId

/-- FlatMap.addAnnotation_ of src/unnamed/part_000: stamp the annotation
with its derived URL and the feature identifier, then index it under both. -/
def FlatMapState.addAnnotation_ (st : FlatMapState) (featureId : String) (ann : Ann) :
    FlatMapState :=
  let url := st.annotationUrl ann
  let ann' := { ann with url := url, featureId := featureId }
  { st with idToAnnotation := mapSet st.idToAnnotation featureId ann',
            urlToAnnotation := mapSet st.urlToAnnotation url ann' }

/-- FlatMap.delAnnotation_ of src/unnamed/part_000: remove the entry keyed
by the feature identifier and the entry keyed by the URL derived from the
annotation object passed in. -/
def FlatMapState.delAnnotation_ (st : FlatMapState) (featureId : String) (ann : Ann) :
    FlatMapState :=
  let url := st.annotationUrl ann
  { st with idToAnnotation := mapDel st.idToAnnotation featureId,
            urlToAnnotation := mapDel st.urlToAnnotation url }

/-- FlatMap.uniqueAnnotation of src/unnamed/part_000: the new annotation is
unique when nothing is stored under its derived URL, or whatever is stored
there carries the same id. -/
def FlatMapState.uniqueAnnotation (st : FlatMapState) (ann : Ann) : Bool :=
  match mapGet st.urlToAnnotation (st.annotationUrl ann) with
  | none => true
  | some stored => stored.id == ann.id

/-- FlatMap.setAnnotation of src/unnamed/part_000, restricted to its effect
on the annotation-store state (the mapbox feature-state calls and the
metadata POST are external side effects). The error block at the end writes
or clears the metadata entry's error field; when the entry is absent it is
left alone (the JS would fault on a write there, which no caller reaches:
annotations carrying an error are only set for features still in the
metadata). -/
def FlatMapState.setAnnotation (st : FlatMapState) (featureId : String) (ann : Ann) :
    FlatMapState :=
  let st1 :=
    match mapGet st.metadata featureId with
    | some md =>
      if ann.text = "" then
        let st' := { st with metadata := mapDel st.metadata featureId }
        st'.delAnnotation_ featureId ann
      else if ann.text ≠ md.annotation then
        let st' :=
          match st.getAnnotation featureId with
          | some oldAnn =>
            if oldAnn.id ≠ ann.id ∧ oldAnn.error ≠ some "duplicate-id" then
              { st with urlToAnnotation := mapDel st.urlToAnnotation (st.annotationUrl oldAnn) }
            else st
          | none => st
        let st'' := st'.addAnnotation_ featureId ann
        { st'' with metadata := mapSet st''.metadata featureId { md with annotation := ann.text } }
      else st
    | none =>
      if ann.text ≠ "" then
        let md : MetadataEntry :=
          { annotation := ann.text,
            geometry := if ann.queryable then "Polygon" else "LineString",
            layer := ann.layer }
        let st' := { st with metadata := mapSet st.metadata featureId md }
        st'.addAnnotation_ featureId ann
      else st
  match ann.error with
  | some e =>
    match mapGet st1.metadata featureId with
    | some md => { st1 with metadata := mapSet st1.metadata featureId { md with error := some e } }
    | none => st1
  | none =>
    match mapGet st1.metadata featureId with
    | some md => { st1 with metadata := mapSet st1.metadata featureId { md with error := none } }
    | none => st1

/-- The save path of Annotator.dialogClose_ of src/src/annotation.js, after
a successful parse of non-empty replacement text that differs from the
current text: the parsed annotation inherits layer and queryable from the
current one; a unique annotation is stored, otherwise the save is rejected
and the annotation is marked with the duplicate-id error (the dialog is
re-shown and the store is not touched). Returns the resulting store state
and the rejection marker, if any. -/
def Annotator.dialogSave (st : FlatMapState) (currentAnn parsedAnn : Ann) :
    FlatMapState × Option String :=
  let newAnn := { parsedAnn with layer := currentAnn.layer, queryable := currentAnn.queryable }
  if st.uniqueAnnotation newAnn then (st.setAnnotation currentAnn.featureId newAnn, none)
  else (st, some "duplicate-id")

/-! Helper lemmas shared by the claim theorems. -/

/-- Rebuilding a string from its character list is the identity. -/
theorem string_mk_toList (s : String) : String.mk s.toList = s := by
  cases s
  rfl

/-- Character list of a string concatenation. -/
theorem string_toList_append (s t : String) : (s ++ t).toList = s.toList ++ t.toList := by
  cases s
  cases t
  rfl

/-- Zero-padding to seven characters is idempotent. -/
theorem padStart7_idem (l : List Char) : padStart7 (padStart7 l) = padStart7 l := by
  simp only [padStart7, List.length_append, List.length_replicate]
  have h : 7 - (7 - l.length + l.length) = 0 := by omega
  rw [h]
  simp

/-- Key normalisation over character lists is idempotent. -/
theorem normaliseKeyL_idem (l : List Char) : normaliseKeyL (normaliseKeyL l) = normaliseKeyL l := by
  by_cases h : l.take 7 = "UBERON:".toList ∨ l.take 7 = "UBERON_".toList
  · have hinner : normaliseKeyL l = "UBERON_".toList ++ padStart7 (l.drop 7) := by
      rw [normaliseKeyL, if_pos h]
    rw [hinner, normaliseKeyL]
    rw [List.take_left' (by rfl), List.drop_left' (by rfl)]
    rw [if_pos (Or.inr rfl), padStart7_idem]
  · have hinner : normaliseKeyL l = l := by
      rw [normaliseKeyL, if_neg h]
    rw [hinner]
    exact hinner

/-- C7: Key normalization maps the two textual forms of a UBERON identifier
to one canonical key with the numeric part zero-padded to seven digits — the
colon form and the underscore form of any suffix normalise alike, in
particular UBERON:388 and UBERON_0000388 both normalise to UBERON_0000388 —
and a key whose first seven characters are neither UBERON: nor UBERON_ is
returned unchanged. -/
theorem C7_normaliseKey_canonical :
    (∀ s : String, ModelOntologies.normaliseKey ("UBERON:" ++ s) =
        ModelOntologies.normaliseKey ("UBERON_" ++ s)) ∧
    (ModelOntologies.normaliseKey "UBERON:388" = ModelOntologies.normaliseKey "UBERON_0000388" ∧
      ModelOntologies.normaliseKey "UBERON:388" = "UBERON_0000388") ∧
    (∀ k : String, k.toList.take 7 ≠ "UBERON:".toList → k.toList.take 7 ≠ "UBERON_".toList →
      ModelOntologies.normaliseKey k = k) := by
  refine ⟨fun s => ?_, ⟨by rfl, by rfl⟩, fun k h1 h2 => ?_⟩
  · simp only [ModelOntologies.normaliseKey]
    rw [string_toList_append, string_toList_append]
    simp only [normaliseKeyL]
    have t1 : List.take 7 ("UBERON:".toList ++ s.toList) = "UBERON:".toList :=
      List.take_left' (by rfl)
    have t2 : List.take 7 ("UBERON_".toList ++ s.toList) = "UBERON_".toList :=
      List.take_left' (by rfl)
    have d1 : List.drop 7 ("UBERON:".toList ++ s.toList) = s.toList :=
      List.drop_left' (by rfl)
    have d2 : List.drop 7 ("UBERON_".toList ++ s.toList) = s.toList :=
      List.drop_left' (by rfl)
    rw [t1, t2, d1, d2]
    rw [if_pos (Or.inl rfl), if_pos (Or.inr rfl)]
  · simp only [ModelOntologies.normaliseKey, normaliseKeyL]
    rw [if_neg (not_or.mpr ⟨h1, h2⟩)]
    exact string_mk_toList k

/-- Witness for C7 at concrete keys: the zero-padding example, and a key
with the FMA prefix passing through unchanged. -/
theorem C7_normaliseKey_canonical_witness :
    ModelOntologies.normaliseKey "UBERON:388" = "UBERON_0000388" ∧
    ModelOntologies.normaliseKey "FMA:123" = "FMA:123" :=
  ⟨C7_normaliseKey_canonical.2.1.2,
   C7_normaliseKey_canonical.2.2 "FMA:123" (by decide) (by decide)⟩

/-- C10: Key normalization is idempotent — normalising an already-normalised
key changes nothing. -/
theorem C10_normaliseKey_idempotent (k : String) :
    ModelOntologies.normaliseKey (ModelOntologies.normaliseKey k) =
      ModelOntologies.normaliseKey k :=
  congrArg String.mk (normaliseKeyL_idem k.toList)

/-- C1: Evaluation of the parser on the exact end-to-end example text. The
claimed id, models, properties.models and absent error all hold, but
properties.label is the one-element sequence holding the closing parenthesis
rather than the label text: the extraction loop reads element 4 of every
clause sequence, and for LABEL_SPEC — the only rule without a whitespace
element after its opening parenthesis — element 4 is the closing parenthesis
literal while the captured label characters sit unused at element 3. -/
theorem C1_end_to_end_example :
    ( Parser.parseAnnotation "#n1 models(UBERON:0000388) label(epiglottis)").id =
      some (.str "n1") ∧
    ( Parser.parseAnnotation "#n1 models(UBERON:0000388) label(epiglottis)").models =
      [.str "UBERON:0000388"] ∧
    ( Parser.parseAnnotation "#n1 models(UBERON:0000388) label(epiglottis)").error = none ∧
    ( Parser.parseAnnotation "#n1 models(UBERON:0000388) label(epiglottis)").properties =
      some [("models", [.str "UBERON:0000388"]), ("label", [.str ")"])] ∧
    [PVal.str ")"] ≠ [PVal.str "epiglottis"] := by
  refine ⟨rfl, rfl, rfl, rfl, ?_⟩
  decide

/-- C3: Parser.parseAnnotation returns a record for every input — the
embedding is a total function, matching the source where the catch block
turns every SyntaxError into data and the re-throw branch for other
exceptions is unreachable (the extraction loop cannot fault on any value the
grammar produces) — with the error field present exactly when the grammar
rejects the text, the id field present exactly when it accepts it, and the
empty string rejected. -/
theorem C3_no_throw_error_iff (t : String) :
    (( Parser.parseAnnotation t).error.isSome ↔ (annotationParse t).isNone) ∧
    (( Parser.parseAnnotation t).id.isSome ↔ (annotationParse t).isSome) ∧
    ( Parser.parseAnnotation "").error = some () := by
  refine ⟨?_, ?_, rfl⟩ <;> cases h : annotationParse t <;>
    simp [Parser.parseAnnotation, h]

/-- C9: Any accepted annotation text whose parse result is a feature
identifier with an empty clause list yields a record with no properties key
at all, while models is still the empty sequence. -/
theorem C9_no_clause_no_properties (t : String) (v : PVal)
    (h : annotationParse t = some (.list [v, .list []])) :
    ( Parser.parseAnnotation t).properties = none ∧
      ( Parser.parseAnnotation t).models = ([] : List PVal) := by
  simp [Parser.parseAnnotation, h, PVal.listOf, PVal.idx]

/-- Witness for C9 at the one-identifier text of the claim. -/
theorem C9_no_clause_no_properties_witness :
    annotationParse "#n1" = some (.list [.str "n1", .list []]) ∧
    ( Parser.parseAnnotation "#n1").properties = none ∧
      ( Parser.parseAnnotation "#n1").models = ([] : List PVal) :=
  ⟨rfl, C9_no_clause_no_properties "#n1" (.str "n1") rfl⟩

/-- Prepending the class-selector dot keeps distinct names distinct. -/
theorem dot_append_inj (s t : String) : ("." ++ s : String) = "." ++ t ↔ s = t := by
  constructor
  · intro h
    have h2 : ("." ++ s).toList = ("." ++ t).toList := by rw [h]
    rw [string_toList_append, string_toList_append] at h2
    have h3 : s.toList = t.toList := by simpa using h2
    calc s = String.mk s.toList := (string_mk_toList s).symm
    _ = String.mk t.toList := by rw [h3]
    _ = t := string_mk_toList t
  · intro h
    rw [h]

/-- C2: With no rule for the feature's own class, rules reached through
part-of ancestry take precedence over rules reached through is-a ancestry:
for an entity of class A with A part-of B and A is-a C, and a stylesheet
holding only a .B color-blue rule and a .C color-green rule — in either
source order — Entity.style resolves color to blue. -/
theorem C2_part_of_outranks_is_a (a b c blue green : String) (swap : Bool)
    (hab : a ≠ b) (hac : a ≠ c) (hbc : b ≠ c) :
    mapGet (Entity.style ⟨a, "", [b], [c]⟩
      (if swap then [("." ++ c, [("color", green)]), ("." ++ b, [("color", blue)])]
       else [("." ++ b, [("color", blue)]), ("." ++ c, [("color", green)])])) "color" =
      some blue := by
  have ecb : (("." ++ c : String) == ("." ++ b)) = false := by
    rw [beq_eq_false_iff_ne]
    exact fun h => hbc ((dot_append_inj c b).mp h).symm
  have ebc : (("." ++ b : String) == ("." ++ c)) = false := by
    rw [beq_eq_false_iff_ne]
    exact fun h => hbc ((dot_append_inj b c).mp h)
  have eba : (("." ++ b : String) == ("." ++ a)) = false := by
    rw [beq_eq_false_iff_ne]
    exact fun h => hab ((dot_append_inj b a).mp h).symm
  have eca : (("." ++ c : String) == ("." ++ a)) = false := by
    rw [beq_eq_false_iff_ne]
    exact fun h => hac ((dot_append_inj c a).mp h).symm
  cases swap <;>
    simp [Entity.style, OntStyleSheet.modelStyle, OntStyleSheet.style, Style.merge,
      mapGet, List.filter, ecb, ebc, eba, eca]

/-- Witness for C2 at concrete class names, for both source orders of the
two rules. -/
theorem C2_part_of_outranks_is_a_witness :
    mapGet (Entity.style ⟨"A", "", ["B"], ["C"]⟩
      [(".B", [("color", "blue")]), (".C", [("color", "green")])]) "color" = some "blue" ∧
    mapGet (Entity.style ⟨"A", "", ["B"], ["C"]⟩
      [(".C", [("color", "green")]), (".B", [("color", "blue")])]) "color" = some "blue" := by
  constructor
  · have h := C2_part_of_outranks_is_a "A" "B" "C" "blue" "green" false
      (by decide) (by decide) (by decide)
    simpa using h
  · have h := C2_part_of_outranks_is_a "A" "B" "C" "blue" "green" true
      (by decide) (by decide) (by decide)
    simpa using h

/-- Comparing a specificity array with itself gives zero. -/
theorem specCompare_self (s : List Nat) : specCompare s s = 0 := by
  induction s with
  | nil => rfl
  | cons a as ih => simp [specCompare, ih]

/-- C6: Two rules of equal selector specificity that both match a feature
and declare the same property resolve to the later-declared rule's value:
pushed with consecutive sequence numbers, the comparator returns zero on the
pair (equal specificity; the position tie-break of the source compares a
position with itself and so never discriminates), the stable sort keeps
their source order, and the resolution loop lets the later rule overwrite
the earlier one's declaration. -/
theorem C6_equal_specificity_later_wins (sel1 sel2 prop v1 v2 : String) (f : Feature)
    (hspec : calcSpecificity sel1 = calcSpecificity sel2)
    (hm1 : selMatches sel1 f = true) (hm2 : selMatches sel2 f = true) :
    mapGet (StyleSheetState.styling
      (StyleSheetState.addStyleRules {}
        [(sel1, .declarationList [(prop, v1)]), (sel2, .declarationList [(prop, v2)])]) f)
      prop = some v2 := by
  simp [StyleSheetState.addStyleRules, sortRules, insertRule, StyleRule.compare, hspec,
    specCompare_self, StyleSheetState.styling, StyleRule.matches, hm1, hm2, mapSet, mapGet]

/-- Witness for C6: two class rules of equal specificity, the feature
matching both (own class A, superclass B); the later blue rule wins. -/
theorem C6_equal_specificity_later_wins_witness :
    mapGet (StyleSheetState.styling
      (StyleSheetState.addStyleRules {}
        [(".A", .declarationList [("color", "red")]),
         (".B", .declarationList [("color", "blue")])])
      ⟨"f1", some "A", ["B"]⟩) "color" = some "blue" :=
  C6_equal_specificity_later_wins ".A" ".B" "color" "red" "blue" ⟨"f1", some "A", ["B"]⟩
    (by decide) (by decide) (by decide)

/-- C8 counterexample: processing two pattern declarations with the same
pattern id emits two load-and-register side effects, not exactly one —
neither PropertiesMap.set nor FlatMap.addPattern checks whether the pattern
id was already registered. -/
theorem C8_duplicate_pattern_two_registrations :
    (PropertiesMap.setAll [] "themes/default.css"
      [⟨"pattern", .sequence ["rough", "'rough.png'"]⟩,
       ⟨"pattern", .sequence ["rough", "'rough.png'"]⟩]).2.length = 2 ∧
    (PropertiesMap.setAll [] "themes/default.css"
      [⟨"pattern", .sequence ["rough", "'rough.png'"]⟩,
       ⟨"pattern", .sequence ["rough", "'rough.png'"]⟩]).2.length ≠ 1 := by
  constructor
  · rfl
  · decide

/-- C8 amended: pattern registration is per declaration, not idempotent per
pattern id — every well-formed pattern declaration processed emits one
load-and-register side effect, so the same declaration processed twice emits
two identical registrations (the properties map, by contrast, keeps a single
entry under the property name). -/
theorem C8_registration_per_declaration (u pid ptok : String)
    (props : List (String × CssValue)) :
    (PropertiesMap.setAll props u
      [⟨"pattern", .sequence [pid, ptok]⟩, ⟨"pattern", .sequence [pid, ptok]⟩]).2 =
      [⟨u, pid, sliceEnds ptok⟩, ⟨u, pid, sliceEnds ptok⟩] := by
  simp [PropertiesMap.setAll, PropertiesMap.set]

/-- C4: Saving an annotation whose derived URL is already indexed for an
annotation with a different id is rejected: the dialog-close save path marks
it duplicate-id and returns without touching the store, so the stored record
and both its index entries are unchanged. -/
theorem C4_duplicate_id_save_rejected (st : FlatMapState) (currentAnn parsedAnn stored : Ann)
    (hstored : mapGet st.urlToAnnotation
      (st.annotationUrl { parsedAnn with
        layer := currentAnn.layer, queryable := currentAnn.queryable }) = some stored)
    (hdiff : stored.id ≠ parsedAnn.id) :
    Annotator.dialogSave st currentAnn parsedAnn = (st, some "duplicate-id") := by
  simp [Annotator.dialogSave, FlatMapState.uniqueAnnotation, hstored, beq_iff_eq, hdiff]

/-- Witness for C4: a store holding an annotation with id n1 under the URL
the new annotation with id n2 derives; the save is rejected and the state
returned unchanged. -/
theorem C4_duplicate_id_save_rejected_witness :
    Annotator.dialogSave
      { source := "S",
        idToAnnotation :=
          [("f1", { id := some "n1", layer := "L", text := "#n1",
                    featureId := "f1", url := "S/L/n2" })],
        urlToAnnotation :=
          [("S/L/n2", { id := some "n1", layer := "L", text := "#n1",
                        featureId := "f1", url := "S/L/n2" })],
        metadata := [("f1", { annotation := "#n1", layer := "L" })] }
      { layer := "L", featureId := "f2" }
      { id := some "n2", layer := "X", text := "#n2" } =
      ({ source := "S",
         idToAnnotation :=
           [("f1", { id := some "n1", layer := "L", text := "#n1",
                     featureId := "f1", url := "S/L/n2" })],
         urlToAnnotation :=
           [("S/L/n2", { id := some "n1", layer := "L", text := "#n1",
                         featureId := "f1", url := "S/L/n2" })],
         metadata := [("f1", { annotation := "#n1", layer := "L" })] },
       some "duplicate-id") :=
  C4_duplicate_id_save_rejected _ _ _
    { id := some "n1", layer := "L", text := "#n1", featureId := "f1", url := "S/L/n2" }
    (by rfl) (by decide)

/-- C5: Evaluation of setAnnotation at a deletion request. With an
annotation with id n1 stored for feature f1 (indexed under f1 and under the
derived URL S/L/n1), setting the annotation text to the empty string removes
the feature-id index entry but not the URL index entry: delAnnotation_ is
passed the replacement annotation object, whose id field is absent, so the
URL it deletes is S/L/undefined while the prior annotation's S/L/n1 entry
stays behind. -/
theorem C5_empty_text_leaves_url_entry :
    mapGet (FlatMapState.idToAnnotation (FlatMapState.setAnnotation
      { source := "S",
        idToAnnotation :=
          [("f1", { id := some "n1", layer := "L", text := "#n1",
                    featureId := "f1", url := "S/L/n1" })],
        urlToAnnotation :=
          [("S/L/n1", { id := some "n1", layer := "L", text := "#n1",
                        featureId := "f1", url := "S/L/n1" })],
        metadata := [("f1", { annotation := "#n1", geometry := "Polygon", layer := "L" })] }
      "f1" { layer := "L", text := "" })) "f1" = none ∧
    mapGet (FlatMapState.urlToAnnotation (FlatMapState.setAnnotation
      { source := "S",
        idToAnnotation :=
          [("f1", { id := some "n1", layer := "L", text := "#n1",
                    featureId := "f1", url := "S/L/n1" })],
        urlToAnnotation :=
          [("S/L/n1", { id := some "n1", layer := "L", text := "#n1",
                        featureId := "f1", url := "S/L/n1" })],
        metadata := [("f1", { annotation := "#n1", geometry := "Polygon", layer := "L" })] }
      "f1" { layer := "L", text := "" })) "S/L/n1" =
      some { id := some "n1", layer := "L", text := "#n1",
             featureId := "f1", url := "S/L/n1" } := by
  constructor
  · rfl
  · rfl
